import Mathlib

/-!
Shallow embedding of the HDGL Analog Mainnet repository (sources under
`src/`): the `HDGLLatticeContract` Solidity contract, the visualizer
server's persisted-state read path, and the stats server's metrics
history loop.  Machine integers (`uint256`) are modelled as `Nat` with
explicit bound checks mirroring Solidity >= 0.8 checked arithmetic
(overflow reverts).  Reverts are modelled with `Except String`.
-/

namespace HDGL

/-- `2^256`, the exclusive bound of Solidity `uint256`. -/
def U256 : Nat := 2 ^ 256

/-- Big-endian 32-byte serialization of a `uint256` value, as produced by
`abi.encodePacked` for a `uint256` argument. -/
def toBytes32 (n : Nat) : List Nat :=
  (List.range 32).map (fun i => n / 256 ^ (31 - i) % 256)

/-- Bytes of a string (`abi.encodePacked` of a `string` argument is its
UTF-8 byte sequence; the scripts used here are ASCII). -/
def strBytes (s : String) : List Nat := s.toList.map Char.toNat

/-- `keccak256`, idealized.  The real function is a fixed collision-resistant
hash to 32 bytes; no Lean model can compute it and also be reviewed here, so
we idealize it as an injective computable function on byte strings
(length-prefixing, so the digest is never empty, matching the fact that a
real digest always has 32 bytes).  Every theorem below uses only that the
function is deterministic, injective and has non-empty output. -/
def keccak256 (bs : List Nat) : List Nat := bs.length :: bs

/-- `abi.encodePacked` of four `uint256` arguments: the concatenation of
their 32-byte big-endian encodings. -/
def encodePacked4 (a b c d : Nat) : List Nat :=
  toBytes32 a ++ toBytes32 b ++ toBytes32 c ++ toBytes32 d

/-- `toHexString` of the contract: maps each byte to two lowercase hex
characters via the alphabet `"0123456789abcdef"`, high nibble first
(`str[i*2] = alphabet[data[i] >> 4]; str[1+i*2] = alphabet[data[i] & 0x0f]`),
generalized to the length of the digest list. -/
def hexAlphabet : List Char := "0123456789abcdef".toList

def toHexString (data : List Nat) : String :=
  ⟨(data.map (fun b => [hexAlphabet.getD (b / 16 % 16) '0',
                        hexAlphabet.getD (b % 16) '0'])).flatten⟩

/-- The script hash computed inline in `executeLatticeScript`:
`toHexString(keccak256(abi.encodePacked(scriptContent)))`. -/
def hashScript (scriptContent : String) : String :=
  toHexString (keccak256 (strBytes scriptContent))

/-- `struct LatticeState` of the contract. -/
structure LatticeState where
  evolutionCount : Nat
  phaseVariance : Nat
  stateHash : List Nat
  timestamp : Nat
  consensusLocked : Bool
deriving Repr, DecidableEq

/-- `struct LatticeScript` of the contract (addresses modelled as `Nat`,
`address(0)` as `0`). -/
structure LatticeScript where
  scriptHash : String
  scriptContent : String
  submitter : Nat
  executionCount : Nat
  latticeEffect : Nat
  timestamp : Nat
  verified : Bool
deriving Repr, DecidableEq

/-- Solidity zero value of `LatticeScript` (what an unassigned mapping
entry reads as). -/
def LatticeScript.zero : LatticeScript :=
  { scriptHash := "", scriptContent := "", submitter := 0, executionCount := 0,
    latticeEffect := 0, timestamp := 0, verified := false }

/-- `struct Commitment` of the contract. -/
structure Commitment where
  commitmentHash : Nat
  blockHeight : Nat
  validator : Nat
  timestamp : Nat
  confirmed : Bool
deriving Repr, DecidableEq

/-- Solidity zero value of `Commitment`. -/
def Commitment.zero : Commitment :=
  { commitmentHash := 0, blockHeight := 0, validator := 0, timestamp := 0,
    confirmed := false }

/-- The contract's events. -/
inductive Event where
  | StateUpdate (evolutionCount phaseVariance : Nat) (stateHash : List Nat)
  | ScriptExecuted (scriptHash : String) (submitter : Nat) (latticeEffect : Nat)
  | CommitmentMade (commitmentHash : Nat) (validator : Nat) (blockHeight : Nat)
  | ConsensusAchieved (stateHash : List Nat) (timestamp : Nat)
  | ValidatorAuthorized (validator : Nat)
deriving Repr, DecidableEq

/-- The contract's storage, plus the emitted event log. -/
structure ContractState where
  currentState : LatticeState
  latticeScripts : String → LatticeScript
  commitments : Nat → Commitment
  authorizedValidators : Nat → Bool
  scriptHashes : List String
  commitmentHashes : List Nat
  events : List Event

/-- Per-call block environment (`block.timestamp`, `block.number`,
`block.difficulty`). -/
structure BlockEnv where
  timestamp : Nat
  number : Nat
  difficulty : Nat
deriving Repr, DecidableEq

/-- The constructor: genesis lattice state and deployer authorized as the
initial validator. -/
def deploy (sender : Nat) (env : BlockEnv) : ContractState :=
  { currentState :=
      { evolutionCount := 0
        phaseVariance := 1123580
        stateHash := keccak256 (strBytes "genesis")
        timestamp := env.timestamp
        consensusLocked := false }
    latticeScripts := fun _ => LatticeScript.zero
    commitments := fun _ => Commitment.zero
    authorizedValidators := Function.update (fun _ => false) sender true
    scriptHashes := []
    commitmentHashes := []
    events := [Event.ValidatorAuthorized sender] }

/-- `1.618034 * 10^6`, the fixed-point golden-ratio constant of
`_updateLatticeState`. -/
def goldenRatio : Nat := 1618034

/-- `_updateLatticeState`: increments `evolutionCount` (checked), updates
`phaseVariance` by the golden-ratio-modulated effect modulo `2000000`,
derives the new `stateHash` from the packed encoding of the new
`evolutionCount`, new `phaseVariance`, `block.timestamp` and
`block.difficulty`, stamps the time, resets `consensusLocked` to `false`,
and emits `StateUpdate`.  Checked arithmetic (Solidity >= 0.8) reverts on
overflow. -/
def _updateLatticeState (st : ContractState) (latticeEffect : Nat)
    (env : BlockEnv) : Except String ContractState :=
  if st.currentState.evolutionCount + 1 < U256 then
    if latticeEffect * goldenRatio < U256 then
      if st.currentState.phaseVariance + latticeEffect * goldenRatio / 1000000 < U256 then
        let ec := st.currentState.evolutionCount + 1
        let pv := (st.currentState.phaseVariance
                    + latticeEffect * goldenRatio / 1000000) % 2000000
        let sh := keccak256 (encodePacked4 ec pv env.timestamp env.difficulty)
        Except.ok
          { st with
            currentState :=
              { evolutionCount := ec, phaseVariance := pv, stateHash := sh,
                timestamp := env.timestamp, consensusLocked := false }
            events := st.events ++ [Event.StateUpdate ec pv sh] }
      else Except.error "arithmetic overflow"
    else Except.error "arithmetic overflow"
  else Except.error "arithmetic overflow"

/-- Shared tail of `executeLatticeScript`: emit `ScriptExecuted`, then run
`_updateLatticeState` and return the script hash with the new state. -/
def execFinish (st1 : ContractState) (scriptHash : String)
    (sender latticeEffect : Nat) (env : BlockEnv) :
    Except String (String × ContractState) :=
  match _updateLatticeState
      { st1 with events := st1.events
          ++ [Event.ScriptExecuted scriptHash sender latticeEffect] }
      latticeEffect env with
  | Except.ok st3 => Except.ok (scriptHash, st3)
  | Except.error e => Except.error e

/-- `executeLatticeScript`: no authorization modifier.  Registers the script
under its hash if new (pushing the hash onto `scriptHashes`), otherwise
increments its `executionCount` (checked) and refreshes `latticeEffect` and
`timestamp`; then emits `ScriptExecuted` and updates the lattice state. -/
def executeLatticeScript (st : ContractState) (sender : Nat)
    (scriptContent : String) (latticeEffect : Nat) (env : BlockEnv) :
    Except String (String × ContractState) :=
  let scriptHash := hashScript scriptContent
  if (st.latticeScripts scriptHash).scriptHash = "" then
    execFinish
      { st with
        latticeScripts := Function.update st.latticeScripts scriptHash
          { scriptHash := scriptHash, scriptContent := scriptContent,
            submitter := sender, executionCount := 1,
            latticeEffect := latticeEffect, timestamp := env.timestamp,
            verified := false }
        scriptHashes := st.scriptHashes ++ [scriptHash] }
      scriptHash sender latticeEffect env
  else
    if (st.latticeScripts scriptHash).executionCount + 1 < U256 then
      execFinish
        { st with
          latticeScripts := Function.update st.latticeScripts scriptHash
            { st.latticeScripts scriptHash with
              executionCount := (st.latticeScripts scriptHash).executionCount + 1,
              latticeEffect := latticeEffect, timestamp := env.timestamp } }
        scriptHash sender latticeEffect env
    else Except.error "arithmetic overflow"

/-- `makeCommitment` (`onlyAuthorized`): requires the commitment slot to be
unassigned (`validator == address(0)`), then records it and pushes the hash. -/
def makeCommitment (st : ContractState) (sender : Nat) (commitmentHash : Nat)
    (env : BlockEnv) : Except String ContractState :=
  if st.authorizedValidators sender = false then
    Except.error "Not authorized validator"
  else if (st.commitments commitmentHash).validator ≠ 0 then
    Except.error "Commitment already exists"
  else
    Except.ok
      { st with
        commitments := Function.update st.commitments commitmentHash
          { commitmentHash := commitmentHash, blockHeight := env.number,
            validator := sender, timestamp := env.timestamp, confirmed := false }
        commitmentHashes := st.commitmentHashes ++ [commitmentHash]
        events := st.events
          ++ [Event.CommitmentMade commitmentHash sender env.number] }

/-- `confirmCommitment` (`onlyAuthorized`): requires the commitment to exist
and be unconfirmed; marks it confirmed, and if consensus is not yet locked,
locks it and emits `ConsensusAchieved`. -/
def confirmCommitment (st : ContractState) (sender : Nat)
    (commitmentHash : Nat) (env : BlockEnv) : Except String ContractState :=
  if st.authorizedValidators sender = false then
    Except.error "Not authorized validator"
  else if (st.commitments commitmentHash).validator = 0 then
    Except.error "Commitment does not exist"
  else if (st.commitments commitmentHash).confirmed = true then
    Except.error "Already confirmed"
  -- source: set `confirmed := true`, then `if (!currentState.consensusLocked)`
  -- lock and emit; the intermediate state is inlined into the two outcomes
  else if st.currentState.consensusLocked = false then
    Except.ok
      { st with
        commitments := Function.update st.commitments commitmentHash
          { st.commitments commitmentHash with confirmed := true }
        currentState := { st.currentState with consensusLocked := true }
        events := st.events
          ++ [Event.ConsensusAchieved st.currentState.stateHash env.timestamp] }
  else
    Except.ok
      { st with
        commitments := Function.update st.commitments commitmentHash
          { st.commitments commitmentHash with confirmed := true } }

/-- `authorizeValidator` (`onlyAuthorized`). -/
def authorizeValidator (st : ContractState) (sender : Nat) (validator : Nat) :
    Except String ContractState :=
  if st.authorizedValidators sender = false then
    Except.error "Not authorized validator"
  else
    Except.ok
      { st with
        authorizedValidators := Function.update st.authorizedValidators validator true
        events := st.events ++ [Event.ValidatorAuthorized validator] }

/-- `getScriptCount`. -/
def getScriptCount (st : ContractState) : Nat := st.scriptHashes.length

/-- External transactions against the contract. -/
inductive Op where
  | execScript (sender : Nat) (scriptContent : String) (latticeEffect : Nat) (env : BlockEnv)
  | makeCommit (sender : Nat) (commitmentHash : Nat) (env : BlockEnv)
  | confirmCommit (sender : Nat) (commitmentHash : Nat) (env : BlockEnv)
  | authorize (sender : Nat) (validator : Nat)

/-- Run one transaction, propagating reverts. -/
def runOp (st : ContractState) : Op → Except String ContractState
  | Op.execScript sender c eff env =>
      (executeLatticeScript st sender c eff env).map Prod.snd
  | Op.makeCommit sender h env => makeCommitment st sender h env
  | Op.confirmCommit sender h env => confirmCommitment st sender h env
  | Op.authorize sender v => authorizeValidator st sender v

/-- Apply one transaction: a revert leaves the contract state unchanged
(EVM transaction atomicity). -/
def applyOp (st : ContractState) (op : Op) : ContractState :=
  match runOp st op with
  | Except.ok st' => st'
  | Except.error _ => st

/-- Apply a sequence of transactions. -/
def runTrace (st : ContractState) (ops : List Op) : ContractState :=
  ops.foldl applyOp st

/-! ## Visualizer server: persisted-state read path

Model of `readLatticeState` and the `/api/state` route of the visualizer
server (the Express app at the end of `src/unnamed/part_000`). -/

/-- The parsed shape of `/app/data/state.json`. -/
structure StateJson where
  dimensions : List Nat
  phases : List Nat
  tape : List Nat
  timestamp : Nat
deriving Repr, DecidableEq

/-- The server's `defaultState`. -/
def defaultState : StateJson :=
  { dimensions := [1, 1, 1, 1, 1, 1, 1, 1]
    phases := [0, 0, 0, 0, 0, 0, 0, 0]
    tape := [0, 0, 0, 0, 0, 0, 0, 0]
    timestamp := 0 }

/-- Content of the persisted `/app/data/state.json` file as the read path
observes it: missing (so `readFileSync` throws), present but malformed (so
`JSON.parse` throws), or a well-formed state. -/
inductive FileContent where
  | absent
  | malformed
  | wellFormed (s : StateJson)
deriving Repr, DecidableEq

/-- `readLatticeState`: returns the parsed state on success; on any read or
parse error it attempts `writeFileSync` of `defaultState` (overwriting
whatever was persisted) and returns the default; if that write also fails
(`writeOk = false`) it returns `null` and leaves the file alone.  The result
pairs the returned value with the file content after the call. -/
def readLatticeState (file : FileContent) (writeOk : Bool) :
    Option StateJson × FileContent :=
  match file with
  | FileContent.wellFormed s => (some s, file)
  | _ =>
      if writeOk then (some defaultState, FileContent.wellFormed defaultState)
      else (none, file)

/-- Response of the `/api/state` route. -/
inductive ApiResponse where
  | ok (s : StateJson)
  | serverError (code : Nat) (msg : String)
deriving Repr, DecidableEq

/-- The `/api/state` handler: `res.json(state)` when `readLatticeState`
returned a state, otherwise `res.status(500).json(...)`. -/
def apiState (file : FileContent) (writeOk : Bool) :
    ApiResponse × FileContent :=
  match readLatticeState file writeOk with
  | (some s, file') => (ApiResponse.ok s, file')
  | (none, file') => (ApiResponse.serverError 500 "Could not read state", file')

/-! ## Stats server: metrics history

Model of the periodic update loop of
`src/POA candidates/mainnet/stats_server.js`. -/

/-- `MAX_HISTORY` of the stats server. -/
def MAX_HISTORY : Nat := 1000

/-- One tick of the update interval: push the fresh metrics entry, then if
`metricsHistory.length > MAX_HISTORY`, `shift()` off the oldest entry. -/
def tickUpdate {α : Type} (metricsHistory : List α) (metrics : α) : List α :=
  if MAX_HISTORY < (metricsHistory ++ [metrics]).length
  then (metricsHistory ++ [metrics]).tail
  else metricsHistory ++ [metrics]

/-- The history after recording a given sequence of metrics entries,
starting from the initial empty history. -/
def runTicks {α : Type} (ms : List α) : List α :=
  ms.foldl tickUpdate []

/-! ## Auxiliary definitions for the statements and proofs -/

/-- Error message of a reverted call, `none` on success. -/
def errMsg {ε α : Type} : Except ε α → Option ε
  | Except.error m => some m
  | Except.ok _ => none

/-- Storage invariant tying the `scriptHashes` array to the
`latticeScripts` mapping, plus the phase-variance bound. -/
def Inv (st : ContractState) : Prop :=
  st.scriptHashes.Nodup ∧
  (∀ k, k ∈ st.scriptHashes ↔ (st.latticeScripts k).scriptHash ≠ "") ∧
  st.currentState.phaseVariance < 2000000

/-- Hashes of the scripts successfully submitted along a trace (a reverted
`executeLatticeScript` registers nothing, by transaction atomicity). -/
def submittedHashes (st : ContractState) : List Op → List String
  | [] => []
  | Op.execScript s c eff env :: ops =>
      (if (executeLatticeScript st s c eff env).isOk = true
       then [hashScript c] else [])
        ++ submittedHashes (applyOp st (Op.execScript s c eff env)) ops
  | Op.makeCommit s ch env :: ops =>
      submittedHashes (applyOp st (Op.makeCommit s ch env)) ops
  | Op.confirmCommit s ch env :: ops =>
      submittedHashes (applyOp st (Op.confirmCommit s ch env)) ops
  | Op.authorize s v :: ops =>
      submittedHashes (applyOp st (Op.authorize s v)) ops

/-! Concrete states used by witnesses and counterexamples. -/

def env0 : BlockEnv := { timestamp := 100, number := 7, difficulty := 3 }

/-- Same block environment as `env0` except for the timestamp. -/
def envA : BlockEnv := { timestamp := 101, number := 7, difficulty := 3 }

/-- A freshly deployed contract (deployer address 1). -/
def g0 : ContractState := deploy 1 env0

/-- `g0` after validator 1 makes commitment 42. -/
def gC : ContractState := applyOp g0 (Op.makeCommit 1 42 env0)

/-- `gC` after commitment 42 is confirmed: consensus is locked. -/
def gL : ContractState := applyOp gC (Op.confirmCommit 1 42 env0)

/-- `gL` after a further commitment 43 is made while locked. -/
def gL2 : ContractState := applyOp gL (Op.makeCommit 1 43 env0)

/-- `g0` after one script execution: script `"abc"` is registered. -/
def gS : ContractState := applyOp g0 (Op.execScript 1 "abc" 5 env0)

/-! ## Helper lemmas -/

theorem exists_ok_of_isOk {ε α : Type} {e : Except ε α} (h : e.isOk = true) :
    ∃ a, e = Except.ok a := by
  cases e with
  | ok a => exact ⟨a, rfl⟩
  | error _ => simp [Except.isOk, Except.toBool] at h

theorem isOk_map {ε α β : Type} (f : α → β) (e : Except ε α) :
    (e.map f).isOk = e.isOk := by
  cases e <;> rfl

theorem applyOp_eq_of_runOp_ok {st st' : ContractState} {op : Op}
    (h : runOp st op = Except.ok st') : applyOp st op = st' := by
  unfold applyOp
  rw [h]

theorem applyOp_eq_of_runOp_error {st : ContractState} {op : Op} {m : String}
    (h : runOp st op = Except.error m) : applyOp st op = st := by
  unfold applyOp
  rw [h]

/-- Elimination form for a successful `_updateLatticeState`: the overflow
checks passed and the result is the explicitly updated record. -/
theorem update_ok_elim {st : ContractState} {eff : Nat} {env : BlockEnv}
    {st' : ContractState}
    (h : _updateLatticeState st eff env = Except.ok st') :
    st.currentState.evolutionCount + 1 < U256 ∧
    eff * goldenRatio < U256 ∧
    st.currentState.phaseVariance + eff * goldenRatio / 1000000 < U256 ∧
    st' =
      { st with
        currentState :=
          { evolutionCount := st.currentState.evolutionCount + 1
            phaseVariance := (st.currentState.phaseVariance
              + eff * goldenRatio / 1000000) % 2000000
            stateHash := keccak256 (encodePacked4
              (st.currentState.evolutionCount + 1)
              ((st.currentState.phaseVariance
                + eff * goldenRatio / 1000000) % 2000000)
              env.timestamp env.difficulty)
            timestamp := env.timestamp
            consensusLocked := false }
        events := st.events ++ [Event.StateUpdate
          (st.currentState.evolutionCount + 1)
          ((st.currentState.phaseVariance
            + eff * goldenRatio / 1000000) % 2000000)
          (keccak256 (encodePacked4
            (st.currentState.evolutionCount + 1)
            ((st.currentState.phaseVariance
              + eff * goldenRatio / 1000000) % 2000000)
            env.timestamp env.difficulty))] } := by
  rw [_updateLatticeState] at h
  split_ifs at h with h1 h2 h3
  exact ⟨h1, h2, h3, (Except.ok.inj h).symm⟩

/-- `_updateLatticeState` succeeds exactly when the three checked
operations do not overflow. -/
theorem update_isOk_iff (st : ContractState) (eff : Nat) (env : BlockEnv) :
    (_updateLatticeState st eff env).isOk = true ↔
      st.currentState.evolutionCount + 1 < U256 ∧
      eff * goldenRatio < U256 ∧
      st.currentState.phaseVariance + eff * goldenRatio / 1000000 < U256 := by
  rw [_updateLatticeState]
  split_ifs with h1 h2 h3 <;> simp_all [Except.isOk, Except.toBool]

theorem execFinish_ok_elim {st1 : ContractState} {sh : String}
    {s eff : Nat} {env : BlockEnv} {r : String × ContractState}
    (h : execFinish st1 sh s eff env = Except.ok r) :
    r.1 = sh ∧
    _updateLatticeState
      { st1 with events := st1.events ++ [Event.ScriptExecuted sh s eff] }
      eff env = Except.ok r.2 := by
  unfold execFinish at h
  split at h
  next st3 heq =>
    cases h
    exact ⟨rfl, heq⟩
  next => exact Except.noConfusion h

theorem execFinish_isOk_eq (st1 : ContractState) (sh : String) (s eff : Nat)
    (env : BlockEnv) :
    (execFinish st1 sh s eff env).isOk =
      (_updateLatticeState
        { st1 with events := st1.events ++ [Event.ScriptExecuted sh s eff] }
        eff env).isOk := by
  unfold execFinish
  split <;> simp [Except.isOk, Except.toBool, *]

/-- Elimination form for a successful `executeLatticeScript`: how every
storage component of the result relates to the input state. -/
theorem exec_ok_elim {st : ContractState} {s : Nat} {c : String} {eff : Nat}
    {env : BlockEnv} {r : String × ContractState}
    (h : executeLatticeScript st s c eff env = Except.ok r) :
    r.1 = hashScript c ∧
    r.2.currentState.evolutionCount = st.currentState.evolutionCount + 1 ∧
    r.2.currentState.phaseVariance =
      (st.currentState.phaseVariance + eff * goldenRatio / 1000000) % 2000000 ∧
    r.2.currentState.stateHash = keccak256 (encodePacked4
      (st.currentState.evolutionCount + 1)
      ((st.currentState.phaseVariance + eff * goldenRatio / 1000000) % 2000000)
      env.timestamp env.difficulty) ∧
    r.2.currentState.consensusLocked = false ∧
    r.2.currentState.timestamp = env.timestamp ∧
    r.2.commitments = st.commitments ∧
    r.2.commitmentHashes = st.commitmentHashes ∧
    r.2.authorizedValidators = st.authorizedValidators ∧
    (if (st.latticeScripts (hashScript c)).scriptHash = "" then
      r.2.scriptHashes = st.scriptHashes ++ [hashScript c] ∧
      r.2.latticeScripts = Function.update st.latticeScripts (hashScript c)
        { scriptHash := hashScript c, scriptContent := c, submitter := s,
          executionCount := 1, latticeEffect := eff,
          timestamp := env.timestamp, verified := false }
    else
      r.2.scriptHashes = st.scriptHashes ∧
      r.2.latticeScripts = Function.update st.latticeScripts (hashScript c)
        { st.latticeScripts (hashScript c) with
          executionCount := (st.latticeScripts (hashScript c)).executionCount + 1,
          latticeEffect := eff, timestamp := env.timestamp }) := by
  rw [executeLatticeScript] at h
  split_ifs at h with hNew hCnt
  · obtain ⟨hr1, hupd⟩ := execFinish_ok_elim h
    obtain ⟨-, -, -, hst⟩ := update_ok_elim hupd
    rw [if_pos hNew]
    refine ⟨hr1, ?_⟩
    rw [hst]
    simp
  · obtain ⟨hr1, hupd⟩ := execFinish_ok_elim h
    obtain ⟨-, -, -, hst⟩ := update_ok_elim hupd
    rw [if_neg hNew]
    refine ⟨hr1, ?_⟩
    rw [hst]
    simp

/-- `executeLatticeScript` succeeds exactly when its checked arithmetic
does not overflow; there is no authorization condition. -/
theorem exec_isOk_iff (st : ContractState) (s : Nat) (c : String) (eff : Nat)
    (env : BlockEnv) :
    (executeLatticeScript st s c eff env).isOk = true ↔
      ((st.latticeScripts (hashScript c)).scriptHash = "" ∨
        (st.latticeScripts (hashScript c)).executionCount + 1 < U256) ∧
      st.currentState.evolutionCount + 1 < U256 ∧
      eff * goldenRatio < U256 ∧
      st.currentState.phaseVariance + eff * goldenRatio / 1000000 < U256 := by
  rw [executeLatticeScript]
  split_ifs with hNew hCnt
  · rw [execFinish_isOk_eq, update_isOk_iff]
    simp [hNew]
  · rw [execFinish_isOk_eq, update_isOk_iff]
    simp [hNew, hCnt]
  · simp [Except.isOk, Except.toBool, hNew, hCnt]

theorem makeCommitment_ok_elim {st : ContractState} {s ch : Nat}
    {env : BlockEnv} {st' : ContractState}
    (h : makeCommitment st s ch env = Except.ok st') :
    st.authorizedValidators s = true ∧
    (st.commitments ch).validator = 0 ∧
    st' =
      { st with
        commitments := Function.update st.commitments ch
          { commitmentHash := ch, blockHeight := env.number, validator := s,
            timestamp := env.timestamp, confirmed := false }
        commitmentHashes := st.commitmentHashes ++ [ch]
        events := st.events ++ [Event.CommitmentMade ch s env.number] } := by
  rw [makeCommitment] at h
  split_ifs at h with ha hb
  simp only [Bool.not_eq_false] at ha
  simp only [ne_eq, not_not] at hb
  exact ⟨ha, hb, (Except.ok.inj h).symm⟩

theorem confirmCommitment_ok_elim {st : ContractState} {s ch : Nat}
    {env : BlockEnv} {st' : ContractState}
    (h : confirmCommitment st s ch env = Except.ok st') :
    st.authorizedValidators s = true ∧
    (st.commitments ch).validator ≠ 0 ∧
    (st.commitments ch).confirmed = false ∧
    st' =
      (if st.currentState.consensusLocked = false then
        { st with
          commitments := Function.update st.commitments ch
            { st.commitments ch with confirmed := true }
          currentState := { st.currentState with consensusLocked := true }
          events := st.events
            ++ [Event.ConsensusAchieved st.currentState.stateHash env.timestamp] }
      else
        { st with
          commitments := Function.update st.commitments ch
            { st.commitments ch with confirmed := true } }) := by
  rw [confirmCommitment] at h
  split_ifs at h with ha hb hc hd
  · simp only [Bool.not_eq_false] at ha
    rw [if_pos hd]
    exact ⟨ha, hb, by simpa using hc, (Except.ok.inj h).symm⟩
  · simp only [Bool.not_eq_false] at ha
    rw [if_neg hd]
    exact ⟨ha, hb, by simpa using hc, (Except.ok.inj h).symm⟩

theorem authorizeValidator_ok_elim {st : ContractState} {s v : Nat}
    {st' : ContractState}
    (h : authorizeValidator st s v = Except.ok st') :
    st.authorizedValidators s = true ∧
    st' =
      { st with
        authorizedValidators := Function.update st.authorizedValidators v true
        events := st.events ++ [Event.ValidatorAuthorized v] } := by
  rw [authorizeValidator] at h
  split_ifs at h with ha
  simp only [Bool.not_eq_false] at ha
  exact ⟨ha, (Except.ok.inj h).symm⟩

/-- The script hash string is never empty (a real keccak digest has 32
bytes; our idealization keeps the digest non-empty). -/
theorem hashScript_ne_empty (c : String) : hashScript c ≠ "" := by
  intro h
  have h2 := congrArg String.data h
  simp [hashScript, toHexString, keccak256] at h2

theorem deploy_inv (sender : Nat) (env : BlockEnv) : Inv (deploy sender env) := by
  refine ⟨List.nodup_nil, fun k => ?_, by norm_num [deploy]⟩
  simp [deploy, LatticeScript.zero]

theorem applyOp_inv (st : ContractState) (op : Op) (hInv : Inv st) :
    Inv (applyOp st op) := by
  obtain ⟨hNodup, hMem, hPv⟩ := hInv
  cases heq : runOp st op with
  | error m => rw [applyOp_eq_of_runOp_error heq]; exact ⟨hNodup, hMem, hPv⟩
  | ok st' =>
    rw [applyOp_eq_of_runOp_ok heq]
    cases op with
    | execScript s c eff env =>
      simp only [runOp] at heq
      cases hex : executeLatticeScript st s c eff env with
      | error m => rw [hex] at heq; exact Except.noConfusion heq
      | ok r =>
        rw [hex] at heq
        cases heq
        obtain ⟨-, -, hpv, -, -, -, -, -, -, hbr⟩ := exec_ok_elim hex
        refine ⟨?_, ?_, ?_⟩
        · by_cases hNew : (st.latticeScripts (hashScript c)).scriptHash = ""
          · rw [if_pos hNew] at hbr
            obtain ⟨hsh, -⟩ := hbr
            rw [hsh]
            simp only [List.nodup_append, List.nodup_cons, List.nodup_nil]
            refine ⟨hNodup, by simp, ?_⟩
            intro k hk hk2
            simp at hk2
            subst hk2
            exact ((hMem _).mp hk) hNew
          · rw [if_neg hNew] at hbr
            obtain ⟨hsh, -⟩ := hbr
            rw [hsh]
            exact hNodup
        · by_cases hNew : (st.latticeScripts (hashScript c)).scriptHash = ""
          · rw [if_pos hNew] at hbr
            obtain ⟨hsh, hmap⟩ := hbr
            intro k
            rw [hsh, hmap]
            by_cases hk : k = hashScript c
            · subst hk
              simp [Function.update_same]
              exact hashScript_ne_empty c
            · rw [Function.update_noteq hk]
              simp only [List.mem_append, List.mem_singleton]
              rw [hMem k]
              tauto
          · rw [if_neg hNew] at hbr
            obtain ⟨hsh, hmap⟩ := hbr
            intro k
            rw [hsh, hmap]
            by_cases hk : k = hashScript c
            · subst hk
              simp only [Function.update_same]
              rw [hMem]
            · rw [Function.update_noteq hk]
              exact hMem k
        · rw [hpv]
          exact Nat.mod_lt _ (by norm_num)
    | makeCommit s ch env =>
      simp only [runOp] at heq
      obtain ⟨-, -, hst⟩ := makeCommitment_ok_elim heq
      rw [hst]
      exact ⟨hNodup, hMem, hPv⟩
    | confirmCommit s ch env =>
      simp only [runOp] at heq
      obtain ⟨-, -, -, hst⟩ := confirmCommitment_ok_elim heq
      rw [hst]
      split_ifs <;> exact ⟨hNodup, hMem, hPv⟩
    | authorize s v =>
      simp only [runOp] at heq
      obtain ⟨-, hst⟩ := authorizeValidator_ok_elim heq
      rw [hst]
      exact ⟨hNodup, hMem, hPv⟩

theorem runTrace_inv (ops : List Op) (st : ContractState) (hInv : Inv st) :
    Inv (runTrace st ops) := by
  induction ops generalizing st with
  | nil => exact hInv
  | cons op ops ih => exact ih (applyOp st op) (applyOp_inv st op hInv)

/-- One-step membership change of `scriptHashes`. -/
theorem applyOp_scriptHashes_mem (st : ContractState) (op : Op)
    (hInv : Inv st) (k : String) :
    (k ∈ (applyOp st op).scriptHashes ↔
      k ∈ st.scriptHashes ∨ k ∈ submittedHashes st [op]) := by
  obtain ⟨-, hMem, -⟩ := hInv
  cases op with
  | execScript s c eff env =>
    simp only [submittedHashes, List.append_nil]
    cases hex : executeLatticeScript st s c eff env with
    | error m =>
      have hrun : runOp st (Op.execScript s c eff env) = Except.error m := by
        simp [runOp, hex, Except.map]
      rw [applyOp_eq_of_runOp_error hrun]
      simp [Except.isOk, Except.toBool]
    | ok r =>
      have hrun : runOp st (Op.execScript s c eff env) = Except.ok r.2 := by
        simp [runOp, hex, Except.map]
      rw [applyOp_eq_of_runOp_ok hrun]
      simp only [Except.isOk, Except.toBool, if_true]
      obtain ⟨-, -, -, -, -, -, -, -, -, hbr⟩ := exec_ok_elim hex
      by_cases hNew : (st.latticeScripts (hashScript c)).scriptHash = ""
      · rw [if_pos hNew] at hbr
        rw [hbr.1]
        simp
      · rw [if_neg hNew] at hbr
        rw [hbr.1]
        have : hashScript c ∈ st.scriptHashes := (hMem _).mpr hNew
        simp only [List.mem_singleton]
        constructor
        · exact fun hk => Or.inl hk
        · rintro (hk | hk)
          · exact hk
          · rwa [hk]
  | makeCommit s ch env =>
    simp only [submittedHashes]
    cases heq : runOp st (Op.makeCommit s ch env) with
    | error m => rw [applyOp_eq_of_runOp_error heq]; simp
    | ok st' =>
      rw [applyOp_eq_of_runOp_ok heq]
      simp only [runOp] at heq
      obtain ⟨-, -, hst⟩ := makeCommitment_ok_elim heq
      rw [hst]
      simp
  | confirmCommit s ch env =>
    simp only [submittedHashes]
    cases heq : runOp st (Op.confirmCommit s ch env) with
    | error m => rw [applyOp_eq_of_runOp_error heq]; simp
    | ok st' =>
      rw [applyOp_eq_of_runOp_ok heq]
      simp only [runOp] at heq
      obtain ⟨-, -, -, hst⟩ := confirmCommitment_ok_elim heq
      rw [hst]
      split_ifs <;> simp
  | authorize s v =>
    simp only [submittedHashes]
    cases heq : runOp st (Op.authorize s v) with
    | error m => rw [applyOp_eq_of_runOp_error heq]; simp
    | ok st' =>
      rw [applyOp_eq_of_runOp_ok heq]
      simp only [runOp] at heq
      obtain ⟨-, hst⟩ := authorizeValidator_ok_elim heq
      rw [hst]
      simp

theorem submittedHashes_cons (st : ContractState) (op : Op) (ops : List Op) :
    submittedHashes st (op :: ops) =
      submittedHashes st [op] ++ submittedHashes (applyOp st op) ops := by
  cases op <;> simp [submittedHashes]

/-- Trace-level membership of `scriptHashes`. -/
theorem runTrace_scriptHashes_mem (ops : List Op) (st : ContractState)
    (hInv : Inv st) (k : String) :
    (k ∈ (runTrace st ops).scriptHashes ↔
      k ∈ st.scriptHashes ∨ k ∈ submittedHashes st ops) := by
  induction ops generalizing st with
  | nil => simp [runTrace, submittedHashes]
  | cons op ops ih =>
    have h1 : runTrace st (op :: ops) = runTrace (applyOp st op) ops := rfl
    rw [h1, submittedHashes_cons,
      ih (applyOp st op) (applyOp_inv st op hInv),
      applyOp_scriptHashes_mem st op hInv k]
    simp only [List.mem_append]
    tauto

/-- One-step evolution-count monotonicity. -/
theorem applyOp_evolutionCount (st : ContractState) (op : Op) :
    st.currentState.evolutionCount ≤
      (applyOp st op).currentState.evolutionCount := by
  cases heq : runOp st op with
  | error m => rw [applyOp_eq_of_runOp_error heq]
  | ok st' =>
    rw [applyOp_eq_of_runOp_ok heq]
    cases op with
    | execScript s c eff env =>
      simp only [runOp] at heq
      cases hex : executeLatticeScript st s c eff env with
      | error m => rw [hex] at heq; exact Except.noConfusion heq
      | ok r =>
        rw [hex] at heq
        cases heq
        obtain ⟨-, hec, -⟩ := exec_ok_elim hex
        rw [hec]
        exact Nat.le_succ _
    | makeCommit s ch env =>
      simp only [runOp] at heq
      obtain ⟨-, -, hst⟩ := makeCommitment_ok_elim heq
      rw [hst]
    | confirmCommit s ch env =>
      simp only [runOp] at heq
      obtain ⟨-, -, -, hst⟩ := confirmCommitment_ok_elim heq
      rw [hst]
      split_ifs <;> simp
    | authorize s v =>
      simp only [runOp] at heq
      obtain ⟨-, hst⟩ := authorizeValidator_ok_elim heq
      rw [hst]

/-- Closed form of the metrics-history loop: the history is always the
most recent `MAX_HISTORY` recorded entries, in recording order. -/
theorem runTicks_eq {α : Type} (ms : List α) :
    runTicks ms = ms.drop (ms.length - MAX_HISTORY) := by
  show runTicks ms = ms.drop (ms.length - 1000)
  induction ms using List.reverseRecOn with
  | nil => simp [runTicks]
  | append_singleton ms m ih =>
    have hstep : runTicks (ms ++ [m]) = tickUpdate (runTicks ms) m := by
      simp [runTicks, List.foldl_append]
    rw [hstep, ih]
    rw [tickUpdate]
    show (if 1000 < (List.drop (ms.length - 1000) ms ++ [m]).length
          then (List.drop (ms.length - 1000) ms ++ [m]).tail
          else List.drop (ms.length - 1000) ms ++ [m]) =
         List.drop ((ms ++ [m]).length - 1000) (ms ++ [m])
    by_cases hlt : ms.length < 1000
    · have h0 : ms.length - 1000 = 0 := Nat.sub_eq_zero_of_le (le_of_lt hlt)
      have h1 : ms.length + 1 - 1000 = 0 := Nat.sub_eq_zero_of_le hlt
      rw [h0]
      simp only [List.drop_zero]
      have hcond : ¬ 1000 < (ms ++ [m]).length := by
        simp only [List.length_append, List.length_singleton]
        omega
      rw [if_neg hcond]
      have h2 : (ms ++ [m]).length = ms.length + 1 := by simp
      rw [h2, h1]
      simp
    · push_neg at hlt
      have hlen : (ms.drop (ms.length - 1000)).length = 1000 := by
        rw [List.length_drop]
        exact Nat.sub_sub_self hlt
      have hcond : 1000 < (ms.drop (ms.length - 1000) ++ [m]).length := by
        simp only [List.length_append, List.length_singleton, hlen]
        omega
      rw [if_pos hcond]
      have hne : ms.drop (ms.length - 1000) ≠ [] := by
        intro hcon
        rw [hcon] at hlen
        simp at hlen
      rw [List.tail_append_singleton_of_ne_nil hne, List.tail_drop]
      have h2 : (ms ++ [m]).length = ms.length + 1 := by simp
      rw [h2]
      have h3 : ms.length + 1 - 1000 = (ms.length - 1000) + 1 := by omega
      have hle : ms.length - 1000 + 1 ≤ ms.length := by omega
      rw [h3, List.drop_append_of_le_length hle]

/-- Success path of `executeLatticeScript` as a transaction: under the
no-overflow side conditions the call succeeds for any sender, and the
resulting lattice state is fully determined. -/
theorem exec_applyOp_fields (st : ContractState) (s : Nat) (c : String)
    (eff : Nat) (env : BlockEnv)
    (h1 : (st.latticeScripts (hashScript c)).scriptHash = "" ∨
      (st.latticeScripts (hashScript c)).executionCount + 1 < U256)
    (h2 : st.currentState.evolutionCount + 1 < U256)
    (h3 : eff * goldenRatio < U256)
    (h4 : st.currentState.phaseVariance + eff * goldenRatio / 1000000 < U256) :
    (runOp st (Op.execScript s c eff env)).isOk = true ∧
    (applyOp st (Op.execScript s c eff env)).currentState.evolutionCount =
      st.currentState.evolutionCount + 1 ∧
    (applyOp st (Op.execScript s c eff env)).currentState.phaseVariance =
      (st.currentState.phaseVariance + eff * goldenRatio / 1000000) % 2000000 ∧
    (applyOp st (Op.execScript s c eff env)).currentState.stateHash =
      keccak256 (encodePacked4 (st.currentState.evolutionCount + 1)
        ((st.currentState.phaseVariance + eff * goldenRatio / 1000000) % 2000000)
        env.timestamp env.difficulty) ∧
    (applyOp st (Op.execScript s c eff env)).currentState.consensusLocked = false := by
  have hok : (executeLatticeScript st s c eff env).isOk = true :=
    (exec_isOk_iff st s c eff env).mpr ⟨h1, h2, h3, h4⟩
  obtain ⟨r, hr⟩ := exists_ok_of_isOk hok
  have hrun : runOp st (Op.execScript s c eff env) = Except.ok r.2 := by
    simp [runOp, hr, Except.map]
  have happ := applyOp_eq_of_runOp_ok hrun
  obtain ⟨-, hec, hpv, hsh, hlk, -⟩ := exec_ok_elim hr
  rw [happ]
  refine ⟨?_, hec, hpv, hsh, hlk⟩
  rw [hrun]
  rfl

/-! ## Claims -/

/-- C5: `evolution_count` is a monotonic integer: every successful
`executeLatticeScript` transaction (which drives `_updateLatticeState`)
increases it by exactly 1, and no transaction ever decreases it. -/
theorem evolution_count_monotonic :
    (∀ (st : ContractState) (s : Nat) (c : String) (eff : Nat) (env : BlockEnv),
      (runOp st (Op.execScript s c eff env)).isOk = true →
      (applyOp st (Op.execScript s c eff env)).currentState.evolutionCount =
        st.currentState.evolutionCount + 1) ∧
    (∀ (st : ContractState) (op : Op),
      st.currentState.evolutionCount ≤
        (applyOp st op).currentState.evolutionCount) := by
  constructor
  · intro st s c eff env hok
    simp only [runOp, isOk_map] at hok
    obtain ⟨r, hr⟩ := exists_ok_of_isOk hok
    have hrun : runOp st (Op.execScript s c eff env) = Except.ok r.2 := by
      simp [runOp, hr, Except.map]
    rw [applyOp_eq_of_runOp_ok hrun]
    exact (exec_ok_elim hr).2.1
  · exact applyOp_evolutionCount

/-- Witness for C5: a concrete successful script execution from the
deployed state increments `evolution_count` by exactly 1. -/
theorem evolution_count_monotonic_witness :
    (runOp g0 (Op.execScript 1 "abc" 5 env0)).isOk = true ∧
    (applyOp g0 (Op.execScript 1 "abc" 5 env0)).currentState.evolutionCount =
      g0.currentState.evolutionCount + 1 :=
  ⟨by decide, evolution_count_monotonic.1 g0 1 "abc" 5 env0 (by decide)⟩

/-- C6: setting the consensus lock is idempotent: a successful
`confirmCommitment` leaves `consensus_locked = true`; when already locked no
event is appended (no additional lock transition), and `ConsensusAchieved`
is emitted exactly on the transition from unlocked to locked. -/
theorem consensus_lock_idempotent (st : ContractState) (s ch : Nat)
    (env : BlockEnv)
    (hok : (runOp st (Op.confirmCommit s ch env)).isOk = true) :
    (applyOp st (Op.confirmCommit s ch env)).currentState.consensusLocked = true ∧
    (st.currentState.consensusLocked = true →
      (applyOp st (Op.confirmCommit s ch env)).events = st.events) ∧
    (st.currentState.consensusLocked = false →
      (applyOp st (Op.confirmCommit s ch env)).events =
        st.events ++ [Event.ConsensusAchieved st.currentState.stateHash env.timestamp]) := by
  simp only [runOp] at hok
  obtain ⟨st', hr⟩ := exists_ok_of_isOk hok
  have hrun : runOp st (Op.confirmCommit s ch env) = Except.ok st' := by
    simp [runOp, hr]
  rw [applyOp_eq_of_runOp_ok hrun]
  obtain ⟨-, -, -, hst⟩ := confirmCommitment_ok_elim hr
  rw [hst]
  by_cases hlk : st.currentState.consensusLocked = false
  · rw [if_pos hlk]
    exact ⟨rfl, fun htrue => by simp [htrue] at hlk, fun _ => rfl⟩
  · rw [if_neg hlk]
    simp only [Bool.not_eq_false] at hlk
    exact ⟨hlk, fun _ => rfl, fun hfalse => by simp [hfalse] at hlk⟩

/-- Witness for C6: confirming commitment 42 from the unlocked state `gC`
locks consensus and emits `ConsensusAchieved`; confirming commitment 43 from
the already-locked state `gL2` appends no event. -/
theorem consensus_lock_idempotent_witness :
    ((runOp gC (Op.confirmCommit 1 42 env0)).isOk = true ∧
      gC.currentState.consensusLocked = false ∧
      (applyOp gC (Op.confirmCommit 1 42 env0)).currentState.consensusLocked = true ∧
      (applyOp gC (Op.confirmCommit 1 42 env0)).events =
        gC.events ++ [Event.ConsensusAchieved gC.currentState.stateHash env0.timestamp]) ∧
    ((runOp gL2 (Op.confirmCommit 1 43 env0)).isOk = true ∧
      gL2.currentState.consensusLocked = true ∧
      (applyOp gL2 (Op.confirmCommit 1 43 env0)).events = gL2.events) :=
  ⟨⟨by decide, by decide,
    (consensus_lock_idempotent gC 1 42 env0 (by decide)).1,
    (consensus_lock_idempotent gC 1 42 env0 (by decide)).2.2 (by decide)⟩,
   ⟨by decide, by decide,
    (consensus_lock_idempotent gL2 1 43 env0 (by decide)).2.1 (by decide)⟩⟩

/-- C7: `phase_variance` is non-negative in every reachable contract state
(starting from genesis), and stays strictly below the fixed-point bound
2,000,000 after every update. -/
theorem phase_variance_bounded (deployer : Nat) (env : BlockEnv)
    (ops : List Op) :
    0 ≤ (runTrace (deploy deployer env) ops).currentState.phaseVariance ∧
    (runTrace (deploy deployer env) ops).currentState.phaseVariance < 2000000 :=
  ⟨Nat.zero_le _, (runTrace_inv ops _ (deploy_inv deployer env)).2.2⟩

/-- C8: the metrics history is always the most recent `MAX_HISTORY`
recorded entries in recording order, hence bounded by `MAX_HISTORY`; at the
bound each tick evicts exactly the oldest entry. -/
theorem metrics_history_bounded :
    (∀ (α : Type) (ms : List α),
      runTicks ms = ms.drop (ms.length - MAX_HISTORY)) ∧
    (∀ (α : Type) (ms : List α), (runTicks ms).length ≤ MAX_HISTORY) ∧
    (∀ (α : Type) (h : List α) (m : α), h.length = MAX_HISTORY →
      tickUpdate h m = h.drop 1 ++ [m]) := by
  refine ⟨fun α ms => runTicks_eq ms, fun α ms => ?_, fun α h m hlen => ?_⟩
  · rw [runTicks_eq, List.length_drop]
    show ms.length - (ms.length - 1000) ≤ 1000
    omega
  · rw [tickUpdate]
    have hcond : MAX_HISTORY < (h ++ [m]).length := by
      rw [List.length_append, hlen, List.length_singleton]
      exact Nat.lt_succ_self _
    rw [if_pos hcond]
    have hne : h ≠ [] := by
      intro hcon
      rw [hcon] at hlen
      simp [MAX_HISTORY] at hlen
    rw [List.tail_append_singleton_of_ne_nil hne, List.drop_one]

/-- Witness for C8: a full history of 1000 entries evicts exactly its
oldest entry on the next tick. -/
theorem metrics_history_bounded_witness :
    (List.replicate 1000 (0 : Nat)).length = MAX_HISTORY ∧
    tickUpdate (List.replicate 1000 (0 : Nat)) 7 =
      (List.replicate 1000 (0 : Nat)).drop 1 ++ [7] :=
  ⟨by rw [List.length_replicate]; rfl,
   metrics_history_bounded.2.2 Nat (List.replicate 1000 0) 7
     (by rw [List.length_replicate]; rfl)⟩

/-- C9: the script registry never holds duplicates: along every trace from
deployment `scriptHashes` is duplicate-free; resubmitting content whose hash
is already registered leaves `scriptHashes` unchanged while incrementing
that script's `executionCount` by exactly 1 and refreshing its
`latticeEffect` and `timestamp`; and `getScriptCount` equals the number of
distinct script hashes ever successfully submitted. -/
theorem script_registry_no_duplicates :
    (∀ (d : Nat) (env : BlockEnv) (ops : List Op),
      (runTrace (deploy d env) ops).scriptHashes.Nodup) ∧
    (∀ (st : ContractState) (s : Nat) (c : String) (eff : Nat) (env : BlockEnv),
      (st.latticeScripts (hashScript c)).scriptHash ≠ "" →
      (runOp st (Op.execScript s c eff env)).isOk = true →
      (applyOp st (Op.execScript s c eff env)).scriptHashes = st.scriptHashes ∧
      ((applyOp st (Op.execScript s c eff env)).latticeScripts (hashScript c)).executionCount =
        (st.latticeScripts (hashScript c)).executionCount + 1 ∧
      ((applyOp st (Op.execScript s c eff env)).latticeScripts (hashScript c)).latticeEffect = eff ∧
      ((applyOp st (Op.execScript s c eff env)).latticeScripts (hashScript c)).timestamp = env.timestamp) ∧
    (∀ (d : Nat) (env : BlockEnv) (ops : List Op),
      getScriptCount (runTrace (deploy d env) ops) =
        (submittedHashes (deploy d env) ops).dedup.length) := by
  refine ⟨fun d env ops => (runTrace_inv ops _ (deploy_inv d env)).1, ?_, ?_⟩
  · intro st s c eff env hne hok
    simp only [runOp, isOk_map] at hok
    obtain ⟨r, hr⟩ := exists_ok_of_isOk hok
    have hrun : runOp st (Op.execScript s c eff env) = Except.ok r.2 := by
      simp [runOp, hr, Except.map]
    rw [applyOp_eq_of_runOp_ok hrun]
    obtain ⟨-, -, -, -, -, -, -, -, -, hbr⟩ := exec_ok_elim hr
    rw [if_neg hne] at hbr
    obtain ⟨hsh, hmap⟩ := hbr
    rw [hsh, hmap]
    exact ⟨rfl, by rw [Function.update_same], by rw [Function.update_same],
      by rw [Function.update_same]⟩
  · intro d env ops
    have hInv := runTrace_inv ops _ (deploy_inv d env)
    have hperm : (runTrace (deploy d env) ops).scriptHashes.Perm
        (submittedHashes (deploy d env) ops).dedup := by
      refine (List.perm_ext_iff_of_nodup hInv.1 (List.nodup_dedup _)).mpr ?_
      intro k
      rw [runTrace_scriptHashes_mem ops _ (deploy_inv d env) k, List.mem_dedup]
      simp [deploy]
    simpa [getScriptCount] using hperm.length_eq

/-- Witness for C9: resubmitting `"abc"` to `gS` (where it is registered
with `executionCount = 1`) leaves the hash array unchanged and bumps the
execution count to 2. -/
theorem script_registry_no_duplicates_witness :
    ((gS.latticeScripts (hashScript "abc")).scriptHash ≠ "" ∧
      (runOp gS (Op.execScript 2 "abc" 9 envA)).isOk = true) ∧
    ((applyOp gS (Op.execScript 2 "abc" 9 envA)).scriptHashes = gS.scriptHashes ∧
      ((applyOp gS (Op.execScript 2 "abc" 9 envA)).latticeScripts (hashScript "abc")).executionCount =
        (gS.latticeScripts (hashScript "abc")).executionCount + 1 ∧
      ((applyOp gS (Op.execScript 2 "abc" 9 envA)).latticeScripts (hashScript "abc")).latticeEffect = 9 ∧
      ((applyOp gS (Op.execScript 2 "abc" 9 envA)).latticeScripts (hashScript "abc")).timestamp = envA.timestamp) :=
  ⟨⟨by decide, by decide⟩,
   script_registry_no_duplicates.2.1 gS 2 "abc" 9 envA (by decide) (by decide)⟩

/-- C10: authorization gating is asymmetric: an unauthorized sender's
`makeCommitment`, `confirmCommitment` and `authorizeValidator` revert with
`"Not authorized validator"` and leave the contract state unchanged, while
`executeLatticeScript` has no authorization check: any sender succeeds
(absent arithmetic overflow), advancing `evolution_count` and clearing the
consensus lock. -/
theorem authorization_asymmetry :
    (∀ (st : ContractState) (s ch : Nat) (env : BlockEnv),
      st.authorizedValidators s = false →
      runOp st (Op.makeCommit s ch env) = Except.error "Not authorized validator" ∧
      applyOp st (Op.makeCommit s ch env) = st) ∧
    (∀ (st : ContractState) (s ch : Nat) (env : BlockEnv),
      st.authorizedValidators s = false →
      runOp st (Op.confirmCommit s ch env) = Except.error "Not authorized validator" ∧
      applyOp st (Op.confirmCommit s ch env) = st) ∧
    (∀ (st : ContractState) (s v : Nat),
      st.authorizedValidators s = false →
      runOp st (Op.authorize s v) = Except.error "Not authorized validator" ∧
      applyOp st (Op.authorize s v) = st) ∧
    (∀ (st : ContractState) (s : Nat) (c : String) (eff : Nat) (env : BlockEnv),
      ((st.latticeScripts (hashScript c)).scriptHash = "" ∨
        (st.latticeScripts (hashScript c)).executionCount + 1 < U256) →
      st.currentState.evolutionCount + 1 < U256 →
      eff * goldenRatio < U256 →
      st.currentState.phaseVariance + eff * goldenRatio / 1000000 < U256 →
      (runOp st (Op.execScript s c eff env)).isOk = true ∧
      (applyOp st (Op.execScript s c eff env)).currentState.evolutionCount =
        st.currentState.evolutionCount + 1 ∧
      (applyOp st (Op.execScript s c eff env)).currentState.consensusLocked = false) := by
  refine ⟨?_, ?_, ?_, ?_⟩
  · intro st s ch env hauth
    have hrun : runOp st (Op.makeCommit s ch env) =
        Except.error "Not authorized validator" := by
      simp only [runOp, makeCommitment]
      rw [if_pos hauth]
    exact ⟨hrun, applyOp_eq_of_runOp_error hrun⟩
  · intro st s ch env hauth
    have hrun : runOp st (Op.confirmCommit s ch env) =
        Except.error "Not authorized validator" := by
      simp only [runOp, confirmCommitment]
      rw [if_pos hauth]
    exact ⟨hrun, applyOp_eq_of_runOp_error hrun⟩
  · intro st s v hauth
    have hrun : runOp st (Op.authorize s v) =
        Except.error "Not authorized validator" := by
      simp only [runOp, authorizeValidator]
      rw [if_pos hauth]
    exact ⟨hrun, applyOp_eq_of_runOp_error hrun⟩
  · intro st s c eff env h1 h2 h3 h4
    obtain ⟨hok, hec, -, -, hlk⟩ := exec_applyOp_fields st s c eff env h1 h2 h3 h4
    exact ⟨hok, hec, hlk⟩

/-- Witness for C10: sender 9 is unauthorized on the deployed contract; its
commitment calls revert and leave the state unchanged, while its
`executeLatticeScript` call succeeds and clears the consensus lock. -/
theorem authorization_asymmetry_witness :
    (g0.authorizedValidators 9 = false ∧
      runOp g0 (Op.makeCommit 9 42 env0) = Except.error "Not authorized validator" ∧
      applyOp g0 (Op.makeCommit 9 42 env0) = g0 ∧
      runOp g0 (Op.confirmCommit 9 42 env0) = Except.error "Not authorized validator" ∧
      runOp g0 (Op.authorize 9 8) = Except.error "Not authorized validator") ∧
    ((runOp g0 (Op.execScript 9 "zz" 5 env0)).isOk = true ∧
      (applyOp g0 (Op.execScript 9 "zz" 5 env0)).currentState.consensusLocked = false) :=
  ⟨⟨by decide,
    (authorization_asymmetry.1 g0 9 42 env0 (by decide)).1,
    (authorization_asymmetry.1 g0 9 42 env0 (by decide)).2,
    (authorization_asymmetry.2.1 g0 9 42 env0 (by decide)).1,
    (authorization_asymmetry.2.2.1 g0 9 8 (by decide)).1⟩,
   ⟨(authorization_asymmetry.2.2.2 g0 9 "zz" 5 env0 (by decide) (by decide)
      (by decide) (by decide)).1,
    (authorization_asymmetry.2.2.2 g0 9 "zz" 5 env0 (by decide) (by decide)
      (by decide) (by decide)).2.2⟩⟩

/-- C1 counterexample: `gL` is a reachable contract state with
`consensus_locked = true`, yet a single `executeLatticeScript` transaction
changes `evolution_count` and resets `consensus_locked` to `false` — the
claimed freeze under lock, and the claim that only an external reset can
clear the lock, both fail on `_updateLatticeState`. -/
theorem locked_state_mutates_cex :
    gL.currentState.consensusLocked = true ∧
    (applyOp gL (Op.execScript 2 "abc" 5 env0)).currentState.evolutionCount ≠
      gL.currentState.evolutionCount ∧
    (applyOp gL (Op.execScript 2 "abc" 5 env0)).currentState.consensusLocked = false := by
  decide

/-- C1 (amended): the consensus lock does not gate the contract's state
updates: even from a locked state, `executeLatticeScript` succeeds (absent
arithmetic overflow), increments `evolution_count`, recomputes
`phase_variance` and `state_hash`, and resets `consensus_locked` to `false`
as a side effect of the update. -/
theorem locked_state_mutates (st : ContractState) (s : Nat) (c : String)
    (eff : Nat) (env : BlockEnv)
    (_hlk : st.currentState.consensusLocked = true)
    (h1 : (st.latticeScripts (hashScript c)).scriptHash = "" ∨
      (st.latticeScripts (hashScript c)).executionCount + 1 < U256)
    (h2 : st.currentState.evolutionCount + 1 < U256)
    (h3 : eff * goldenRatio < U256)
    (h4 : st.currentState.phaseVariance + eff * goldenRatio / 1000000 < U256) :
    (runOp st (Op.execScript s c eff env)).isOk = true ∧
    (applyOp st (Op.execScript s c eff env)).currentState.evolutionCount =
      st.currentState.evolutionCount + 1 ∧
    (applyOp st (Op.execScript s c eff env)).currentState.phaseVariance =
      (st.currentState.phaseVariance + eff * goldenRatio / 1000000) % 2000000 ∧
    (applyOp st (Op.execScript s c eff env)).currentState.stateHash =
      keccak256 (encodePacked4 (st.currentState.evolutionCount + 1)
        ((st.currentState.phaseVariance + eff * goldenRatio / 1000000) % 2000000)
        env.timestamp env.difficulty) ∧
    (applyOp st (Op.execScript s c eff env)).currentState.consensusLocked = false :=
  exec_applyOp_fields st s c eff env h1 h2 h3 h4

/-- Witness for the amended C1, at the reachable locked state `gL`. -/
theorem locked_state_mutates_witness :
    gL.currentState.consensusLocked = true ∧
    (runOp gL (Op.execScript 2 "abc" 5 env0)).isOk = true ∧
    (applyOp gL (Op.execScript 2 "abc" 5 env0)).currentState.evolutionCount =
      gL.currentState.evolutionCount + 1 ∧
    (applyOp gL (Op.execScript 2 "abc" 5 env0)).currentState.consensusLocked = false :=
  ⟨by decide,
   (locked_state_mutates gL 2 "abc" 5 env0 (by decide) (by decide) (by decide)
     (by decide) (by decide)).1,
   (locked_state_mutates gL 2 "abc" 5 env0 (by decide) (by decide) (by decide)
     (by decide) (by decide)).2.1,
   (locked_state_mutates gL 2 "abc" 5 env0 (by decide) (by decide) (by decide)
     (by decide) (by decide)).2.2.2.2⟩

/-- C2 counterexample: in the reachable state `gL`, commitment 42 is
confirmed; resubmitting it reverts in `makeCommitment` with
`"Commitment already exists"` and in `confirmCommitment` with
`"Already confirmed"` — resubmission of a confirmed digest is an error, not
an idempotent success. -/
theorem resubmission_reverts_cex :
    (gL.commitments 42).confirmed = true ∧
    errMsg (makeCommitment gL 1 42 env0) = some "Commitment already exists" ∧
    errMsg (confirmCommitment gL 1 42 env0) = some "Already confirmed" := by
  decide

/-- C2 (amended): resubmitting an already-confirmed digest is rejected:
`makeCommitment` reverts with `"Commitment already exists"` and
`confirmCommitment` with `"Already confirmed"`; because the calls revert,
the contract state is unchanged, so the commitment's confirmed status
remains `true`. -/
theorem resubmission_reverts (st : ContractState) (s ch : Nat) (env : BlockEnv)
    (hauth : st.authorizedValidators s = true)
    (hval : (st.commitments ch).validator ≠ 0)
    (hconf : (st.commitments ch).confirmed = true) :
    errMsg (makeCommitment st s ch env) = some "Commitment already exists" ∧
    errMsg (confirmCommitment st s ch env) = some "Already confirmed" ∧
    applyOp st (Op.makeCommit s ch env) = st ∧
    applyOp st (Op.confirmCommit s ch env) = st := by
  have hna : ¬ st.authorizedValidators s = false := by simp [hauth]
  have hm : makeCommitment st s ch env =
      Except.error "Commitment already exists" := by
    rw [makeCommitment, if_neg hna, if_pos hval]
  have hc : confirmCommitment st s ch env =
      Except.error "Already confirmed" := by
    rw [confirmCommitment, if_neg hna, if_neg (by simpa using hval), if_pos hconf]
  refine ⟨by rw [hm]; rfl, by rw [hc]; rfl, ?_, ?_⟩
  · exact @applyOp_eq_of_runOp_error st (Op.makeCommit s ch env)
      "Commitment already exists" hm
  · exact @applyOp_eq_of_runOp_error st (Op.confirmCommit s ch env)
      "Already confirmed" hc

/-- Witness for the amended C2, at the reachable state `gL` where
commitment 42 is confirmed. -/
theorem resubmission_reverts_witness :
    (gL.authorizedValidators 1 = true ∧ (gL.commitments 42).validator ≠ 0 ∧
      (gL.commitments 42).confirmed = true) ∧
    (errMsg (makeCommitment gL 1 42 env0) = some "Commitment already exists" ∧
      errMsg (confirmCommitment gL 1 42 env0) = some "Already confirmed" ∧
      applyOp gL (Op.makeCommit 1 42 env0) = gL ∧
      applyOp gL (Op.confirmCommit 1 42 env0) = gL) :=
  ⟨⟨by decide, by decide, by decide⟩,
   resubmission_reverts gL 1 42 env0 (by decide) (by decide) (by decide)⟩

set_option maxRecDepth 8000 in
/-- C3 counterexample: from the same deployed state, the same script with
the same effect executed under two block environments that differ only in
`block.timestamp` yields the same `evolution_count` and `phase_variance`
but different `state_hash` values — the hash is not a function of the
canonical state alone. -/
theorem state_hash_env_dependent_cex :
    (applyOp g0 (Op.execScript 1 "abc" 5 env0)).currentState.evolutionCount =
      (applyOp g0 (Op.execScript 1 "abc" 5 envA)).currentState.evolutionCount ∧
    (applyOp g0 (Op.execScript 1 "abc" 5 env0)).currentState.phaseVariance =
      (applyOp g0 (Op.execScript 1 "abc" 5 envA)).currentState.phaseVariance ∧
    (applyOp g0 (Op.execScript 1 "abc" 5 env0)).currentState.stateHash ≠
      (applyOp g0 (Op.execScript 1 "abc" 5 envA)).currentState.stateHash := by
  decide

/-- C3 (amended): after an update, `state_hash` is a deterministic function
of `evolution_count`, `phase_variance`, `block.timestamp` and
`block.difficulty` only: two updates from states agreeing on
`evolution_count` and `phase_variance`, with the same effect and the same
block environment, produce identical hashes regardless of sender, script
content, or any other prior state — but the hash does depend on the block
environment (see the counterexample). -/
theorem state_hash_determined_by_count_variance_env
    (st1 st2 : ContractState) (s1 s2 : Nat) (c1 c2 : String) (eff : Nat)
    (env : BlockEnv)
    (hec : st1.currentState.evolutionCount = st2.currentState.evolutionCount)
    (hpv : st1.currentState.phaseVariance = st2.currentState.phaseVariance)
    (hok1 : (runOp st1 (Op.execScript s1 c1 eff env)).isOk = true)
    (hok2 : (runOp st2 (Op.execScript s2 c2 eff env)).isOk = true) :
    (applyOp st1 (Op.execScript s1 c1 eff env)).currentState.stateHash =
      (applyOp st2 (Op.execScript s2 c2 eff env)).currentState.stateHash := by
  simp only [runOp, isOk_map] at hok1 hok2
  obtain ⟨r1, hr1⟩ := exists_ok_of_isOk hok1
  obtain ⟨r2, hr2⟩ := exists_ok_of_isOk hok2
  have hrun1 : runOp st1 (Op.execScript s1 c1 eff env) = Except.ok r1.2 := by
    simp [runOp, hr1, Except.map]
  have hrun2 : runOp st2 (Op.execScript s2 c2 eff env) = Except.ok r2.2 := by
    simp [runOp, hr2, Except.map]
  rw [applyOp_eq_of_runOp_ok hrun1, applyOp_eq_of_runOp_ok hrun2,
    (exec_ok_elim hr1).2.2.2.1, (exec_ok_elim hr2).2.2.2.1, hec, hpv]

/-- Witness for the amended C3: two contracts deployed by different senders
at different times, executing different scripts by different senders under
the same block environment, agree on the resulting `state_hash`. -/
theorem state_hash_determined_witness :
    (g0.currentState.evolutionCount = (deploy 5 envA).currentState.evolutionCount ∧
      g0.currentState.phaseVariance = (deploy 5 envA).currentState.phaseVariance ∧
      (runOp g0 (Op.execScript 1 "abc" 5 env0)).isOk = true ∧
      (runOp (deploy 5 envA) (Op.execScript 2 "xyz" 5 env0)).isOk = true) ∧
    (applyOp g0 (Op.execScript 1 "abc" 5 env0)).currentState.stateHash =
      (applyOp (deploy 5 envA) (Op.execScript 2 "xyz" 5 env0)).currentState.stateHash :=
  ⟨⟨by decide, by decide, by decide, by decide⟩,
   state_hash_determined_by_count_variance_env g0 (deploy 5 envA) 1 2 "abc" "xyz"
     5 env0 (by decide) (by decide) (by decide) (by decide)⟩

/-- C4 counterexample: reading a malformed persisted state does not leave
the stored state unchanged and report an error: `readLatticeState`
overwrites the file with `defaultState` and the `/api/state` route reports
success with the substitute value. -/
theorem read_replaces_state_cex :
    readLatticeState FileContent.malformed true =
      (some defaultState, FileContent.wellFormed defaultState) ∧
    FileContent.malformed ≠ FileContent.wellFormed defaultState ∧
    (apiState FileContent.malformed true).1 = ApiResponse.ok defaultState := by
  decide

/-- C4 (amended): on a corrupted or missing persisted state, the read path
overwrites the stored state with `defaultState` and returns it as a
success; only when that fallback write itself fails does the call leave the
file unchanged, return `null`, and surface a 500 error to the caller. -/
theorem read_error_replaces_with_default (file : FileContent) (writeOk : Bool)
    (hbad : file = FileContent.absent ∨ file = FileContent.malformed) :
    (writeOk = true →
      readLatticeState file writeOk =
        (some defaultState, FileContent.wellFormed defaultState) ∧
      (apiState file writeOk).1 = ApiResponse.ok defaultState) ∧
    (writeOk = false →
      readLatticeState file writeOk = (none, file) ∧
      (apiState file writeOk).1 =
        ApiResponse.serverError 500 "Could not read state") := by
  rcases hbad with rfl | rfl <;> cases writeOk
  · exact ⟨fun h => by simp at h, fun _ => ⟨rfl, rfl⟩⟩
  · exact ⟨fun _ => ⟨rfl, rfl⟩, fun h => by simp at h⟩
  · exact ⟨fun h => by simp at h, fun _ => ⟨rfl, rfl⟩⟩
  · exact ⟨fun _ => ⟨rfl, rfl⟩, fun h => by simp at h⟩

/-- Witness for the amended C4, on a malformed persisted state with the
fallback write succeeding and failing respectively. -/
theorem read_error_replaces_with_default_witness :
    (FileContent.malformed = FileContent.absent ∨
      FileContent.malformed = FileContent.malformed) ∧
    (readLatticeState FileContent.malformed true =
      (some defaultState, FileContent.wellFormed defaultState) ∧
     (apiState FileContent.malformed true).1 = ApiResponse.ok defaultState) ∧
    (readLatticeState FileContent.malformed false = (none, FileContent.malformed) ∧
     (apiState FileContent.malformed false).1 =
       ApiResponse.serverError 500 "Could not read state") :=
  ⟨Or.inr rfl,
   (read_error_replaces_with_default FileContent.malformed true (Or.inr rfl)).1 rfl,
   (read_error_replaces_with_default FileContent.malformed false (Or.inr rfl)).2 rfl⟩

end HDGL
